import Mathlib

/-!
Verification of the Velocity Telegram bot (Krisslinux/Velocity).

Shallow embedding of the repository's pure functions and of its per-user
conversational state machine.  Strings are modelled as lists of Unicode
codepoints (`List Nat`); Python's `str.lower` is modelled at the ASCII level
(sufficient for the ASCII substring markers and extensions the code compares
against), while `str.strip` and the regex class `\s` use the full list of
codepoints that CPython treats as whitespace, and the `re.IGNORECASE`
literal matching of the proxy regex uses CPython's full Unicode case
equivalences.
-/

namespace Velocity

/-- A string, as its list of Unicode codepoints. -/
abbrev Str := List Nat

/-- Codepoints of a Lean string literal (used only to write constants). -/
def codes (s : String) : Str := s.data.map Char.toNat

/-- The codepoints below 0x10000 for which CPython's `str.isspace` (and hence
`str.strip` and the regex class `\s`) is true. -/
def pyWsChars : List Nat :=
  [9, 10, 11, 12, 13, 28, 29, 30, 31, 32, 133, 160, 5760,
   8192, 8193, 8194, 8195, 8196, 8197, 8198, 8199, 8200, 8201, 8202,
   8232, 8233, 8239, 8287, 12288]

/-- Python whitespace test on a codepoint. -/
def isSpace (c : Nat) : Bool := pyWsChars.contains c

/-- `str.strip` of leading whitespace. -/
def pyStripLeft (s : Str) : Str := s.dropWhile isSpace

/-- `str.strip` of trailing whitespace. -/
def pyStripRight (s : Str) : Str := (s.reverse.dropWhile isSpace).reverse

/-- Python `str.strip()`. -/
def pyStrip (s : Str) : Str := pyStripRight (pyStripLeft s)

/-- ASCII lowering, the fragment of `str.lower` relevant to the ASCII
patterns the code compares against. -/
def asciiLower (c : Nat) : Nat := if 65 ≤ c ∧ c ≤ 90 then c + 32 else c

/-- Python `str.lower()` (ASCII fragment). -/
def lowerStr (s : Str) : Str := s.map asciiLower

/-- The explicitly listed illegal filename characters of
`re.sub(r"[<>:\"/\\|?*\x00-\x1F]", "_", name)`: `< > : " / \ | ? *`. -/
def illegalList : List Nat := [60, 62, 58, 34, 47, 92, 124, 63, 42]

/-- A codepoint matched by the character class
`[<>:\"/\\|?*\x00-\x1F]` of `utils.safe_filename`. -/
def isIllegal (c : Nat) : Bool := illegalList.contains c || decide (c < 32)

/-- One character step of `re.sub(r"[<>:\"/\\|?*\x00-\x1F]", "_", name)`
(the class matches single characters, so the sub is a character map). -/
def subIllegal (c : Nat) : Nat := if isIllegal c then 95 else c

/-- One character step of `name.replace("\n", " ")`. -/
def nlToSpace (c : Nat) : Nat := if c = 10 then 32 else c

/-- `re.sub(r"\s+", " ", name)`: each maximal run of whitespace becomes one
space.  The Boolean flag records whether we are inside a run. -/
def collapseWsAux : Bool → Str → Str
  | _, [] => []
  | true, c :: rest =>
    if isSpace c then collapseWsAux true rest
    else c :: collapseWsAux false rest
  | false, c :: rest =>
    if isSpace c then 32 :: collapseWsAux true rest
    else c :: collapseWsAux false rest

/-- `re.sub(r"\s+", " ", name)`. -/
def collapseWs (s : Str) : Str := collapseWsAux false s

/-- `utils.safe_filename` (identical to `app.safe_filename`):
strip, replace newlines by spaces, replace illegal characters by `_`,
collapse whitespace runs, truncate to 180 characters
(`name[:180] if len(name) > 180 else name` is `take 180`). -/
def safe_filename (s : Str) : Str :=
  (collapseWs (((pyStrip s).map nlToSpace).map subIllegal)).take 180

def noRun : Str → Bool
  | c :: d :: rest => (!(isSpace c && isSpace d)) && noRun (d :: rest)
  | _ => true

/-! ### Python string/path helpers used by the handlers -/

/-- Python `pat in s` substring test. -/
def containsSub (pat : Str) : Str → Bool
  | [] => pat.isEmpty
  | c :: rest => pat.isPrefixOf (c :: rest) || containsSub pat rest

/-- `pathlib.Path(s).name`: the last nonempty `/`-separated component. -/
def pyName (s : Str) : Str :=
  ((s.splitOn 47).filter (fun t => !t.isEmpty)).getLastD []

/-- `pathlib.Path(s).suffix`: the extension of the last component, empty for
dotfiles and names whose only dot is first or last. -/
def pySuffix (s : Str) : Str :=
  let n := pyName s
  match (n.reverse).findIdx? (fun c => c == 46) with
  | none => []
  | some j =>
    let i := n.length - 1 - j
    if 0 < i ∧ i < n.length - 1 then n.drop i else []

/-- `pathlib.Path(s).stem`: the last component without its suffix. -/
def pyStem (s : Str) : Str :=
  let n := pyName s
  n.take (n.length - (pySuffix s).length)

/-- The content kinds of `utils.detect_content_type_from_name`. -/
inductive Kind
  | pdf | zipk | image | text | unknown
deriving DecidableEq, Repr

/-- `utils.detect_content_type_from_name` (only the kind component; the code
lowercases, strips, takes the pathlib suffix and compares it). -/
def detect_content_type_from_name (name : Str) : Kind :=
  let ext := pySuffix (pyStrip (lowerStr name))
  if ext = codes (".pdf") then Kind.pdf
  else if ext = codes (".zip") then Kind.zipk
  else if ext = codes (".jpg") ∨ ext = codes (".jpeg") ∨ ext = codes (".png") ∨
          ext = codes (".webp") ∨ ext = codes (".bmp") ∨ ext = codes (".tiff") then
    Kind.image
  else if ext = codes (".txt") ∨ ext = codes (".log") ∨ ext = codes (".md") ∨
          ext = codes (".csv") then
    Kind.text
  else Kind.unknown

/-- Does input codepoint `d` match the pattern literal `c` under CPython's
`re.IGNORECASE` (Unicode, non-locale)?  The engine lowers `d` with the
simple Unicode lowercase mapping and compares it against the literal's
case-equivalence class: `sre_compile._equivalences` adds U+017F `ſ` to the
class of `s` and U+0131 `ı` to the class of `i`, and the only codepoints
outside ASCII whose simple lowercase mapping lands on an ASCII letter are
U+212A (Kelvin sign, to `k`) and U+0130 (`İ`, to `i`).  This table is
therefore exact for every ASCII-lowercase or uncased-ASCII pattern literal,
which covers all of `PROXY_RE`. -/
def reLitICase (c d : Nat) : Bool :=
  if c = 115 then d = 115 ∨ d = 83 ∨ d = 383
  else if c = 107 then d = 107 ∨ d = 75 ∨ d = 8490
  else if c = 105 then d = 105 ∨ d = 73 ∨ d = 304 ∨ d = 305
  else if 97 ≤ c ∧ c ≤ 122 then d = c ∨ d = c - 32
  else d = c

/-- Does `s` start with the literal pattern `pat`, each character matched
with `re.IGNORECASE`? -/
def reMatchLits : Str → Str → Bool
  | [], _ => true
  | _ :: _, [] => false
  | c :: cs, d :: ds => reLitICase c d && reMatchLits cs ds

/-- `bot.PROXY_RE.match(p)`: the regex `^(http|https|socks5)://` with
`re.I`.  The alternation (with its backtracking) accepts exactly the
strings starting with `http://`, `https://` or `socks5://`, each literal
matched case-insensitively with CPython's Unicode equivalences
(`reLitICase`), so e.g. `HtTp://x`, `httpſ://x` and `socKs5://x` with a
Kelvin sign are all accepted. -/
def proxy_re_match (s : Str) : Bool :=
  reMatchLits (codes ("http://")) s || reMatchLits (codes ("https://")) s ||
    reMatchLits (codes ("socks5://")) s

/-- The service names returned by `features_download.guess_downloader`. -/
inductive Service
  | pixeldrain | gdrive | mega | youtube | unknown
deriving DecidableEq, Repr

/-- `features_download.guess_downloader`: substring checks, in priority
order, on the stripped and lowercased URL. -/
def guess_downloader (url : Str) : Service :=
  let u := lowerStr (pyStrip url)
  if containsSub (codes ("pixeldrain.com")) u then Service.pixeldrain
  else if containsSub (codes ("drive.google.com")) u then Service.gdrive
  else if containsSub (codes ("mega.nz")) u then Service.mega
  else if containsSub (codes ("youtu")) u || containsSub (codes ("youtube.com")) u then
    Service.youtube
  else Service.unknown


/-! ### The per-user session state machine of `bot.py`

One user's slice of the module-level dictionaries, plus the handlers that
mutate it.  External calls (transport download, the blocking file
operations, `send_file`, `is_zip`, `Path.rename`) are modelled by success
flags in an environment; a Python exception that escapes a handler is an
`Err` in the result, and the state it leaves behind is whatever had been
mutated before the raise, exactly as with the module-level dictionaries. -/

/-- A filesystem path, as its list of components (relative to the user's
storage area). -/
abbrev PathT := List Str

/-- The per-user `work/` directory. -/
def wdirP : PathT := [codes ("work")]

/-- The per-user `output/` directory. -/
def odirP : PathT := [codes ("output")]

/-- The `menu` field of `USER_STATE` entries. -/
inductive Menu
  | main | file | dl | proxy
deriving DecidableEq, Repr

/-- The `action` strings stored in `USER_STATE` (`none` models `None`). -/
inductive Action
  | proxy_wait | zip_wait_file | unzip_wait_zip | rename_wait_file
  | rename_wait_newname | text2pdf_wait_text | img2pdf_collect | merge_collect
  | dl_wait_link_auto | dl_wait_link_yt | dl_wait_link_gdrive
  | dl_wait_link_mega | dl_wait_link_pixeldrain
deriving DecidableEq, Repr

/-- One user's slice of `USER_STATE`, `USER_PROXY`, `MERGE_BUCKET` and
`IMG_BUCKET` (a `none` bucket is an absent dictionary key), together with
the files written so far into this user's `work/` and `output/`
directories. -/
structure BotState where
  menu : Menu
  action : Option Action
  renamePath : Option PathT
  userProxy : Option Str
  mergeBucket : Option (List PathT)
  imgBucket : Option (List PathT)
  workFiles : List PathT
  outputFiles : List PathT
deriving DecidableEq, Repr

/-- `set_state(user_id, menu, action, extra)`: the whole state dictionary is
replaced, so `rename_path` survives only when passed again via `extra`. -/
def set_state (st : BotState) (m : Menu) (a : Option Action) (extra : Option PathT) :
    BotState :=
  { st with menu := m, action := a, renamePath := extra }

/-- Configured limits and the outcomes of the external calls a handler can
make: each flag tells whether that call, if reached, succeeds or raises. -/
structure Env where
  maxFileBytes : Nat
  maxTextLen : Nat
  transferOk : Bool
  opOk : Bool
  sendOk : Bool
  isZipOk : Bool
  renameOk : Bool
deriving DecidableEq, Repr

/-- An attached document's metadata (`file_name`, `file_size`). -/
structure Doc where
  fileName : Option Str
  fileSize : Option Nat
deriving DecidableEq, Repr

/-- An inbound message: optional text, optional document. -/
structure Msg where
  text : Option Str
  document : Option Doc
deriving DecidableEq, Repr

/-- The exception that escapes a handler, when one does. -/
inductive Err
  | tooLarge | transfer | opFail | sendFail
deriving DecidableEq, Repr

/-- The user-visible replies the claims refer to. -/
inductive Reply
  | proxyBad | proxySaved | needTwoPdfs | needOneImage | freeModeCap
  | sessionExpired | renameFailed | notValidZip | pickTask | sendText
  | textTooLong | sendValidFilename | sendValidLink | cleared | cancelled
  | added | onlyPdf | onlyImage | delivered
deriving DecidableEq, Repr

/-- Result of one handler run: final state, escaped exception (if any),
replies sent, and the pdf lists passed to `do_merge_pdfs`. -/
structure HRes where
  state : BotState
  err : Option Err
  replies : List Reply
  mergeCalls : List (List PathT)
deriving DecidableEq, Repr

/-- A handler result with no escaped exception and no merge call. -/
def okRes (st : BotState) (rs : List Reply) : HRes :=
  { state := st, err := none, replies := rs, mergeCalls := [] }

/-- A handler result where exception `e` escaped. -/
def errRes (st : BotState) (e : Err) : HRes :=
  { state := st, err := some e, replies := [], mergeCalls := [] }

/-- The `file.file_size and file.file_size > max_bytes` check of
`download_telegram_file` (falsy sizes skip the check). -/
def sizeTooLarge (env : Env) (doc : Doc) : Bool :=
  match doc.fileSize with
  | none => false
  | some n => decide (0 < n) && decide (env.maxFileBytes < n)

/-- `bot.download_telegram_file`: raises "File too large" before the
blocking transport download whenever the reported size exceeds the ceiling;
on success the file appears in the work area at `dest`. -/
def download_telegram_file (env : Env) (doc : Doc) (dest : PathT) (st : BotState) :
    Except Err BotState :=
  if sizeTooLarge env doc then Except.error Err.tooLarge
  else if env.transferOk = false then Except.error Err.transfer
  else Except.ok { st with workFiles := st.workFiles ++ [dest] }

/-- The `if message.document:` block of `bot.handle_message`, with its five
action branches in source order and the "pick a task" fallback.  (The
contents a successful unzip extracts into `work/unzipped` depend on the
archive and are elided; the two blocking calls of the unzip branch share
one success flag.) -/
def handleDoc (env : Env) (doc : Doc) (st : BotState) : HRes :=
  let filename := doc.fileName.getD (codes ("file.bin"))
  let kind := detect_content_type_from_name filename
  let localPath : PathT := wdirP ++ [safe_filename filename]
  match st.action with
  | some Action.zip_wait_file =>
    match download_telegram_file env doc localPath st with
    | Except.error e => errRes st e
    | Except.ok st1 =>
      if env.opOk = false then errRes st1 Err.opFail
      else
        let outZip := odirP ++ [safe_filename (pyStem filename ++ codes (".zip"))]
        let st2 := { st1 with outputFiles := st1.outputFiles ++ [outZip] }
        if env.sendOk = false then errRes st2 Err.sendFail
        else okRes (set_state st2 Menu.file none none) [Reply.delivered]
  | some Action.unzip_wait_zip =>
    match download_telegram_file env doc localPath st with
    | Except.error e => errRes st e
    | Except.ok st1 =>
      if env.isZipOk = false then okRes st1 [Reply.notValidZip]
      else if env.opOk = false then errRes st1 Err.opFail
      else
        let outZip := odirP ++ [safe_filename (pyStem filename ++ codes ("_unzipped.zip"))]
        let st2 := { st1 with outputFiles := st1.outputFiles ++ [outZip] }
        if env.sendOk = false then errRes st2 Err.sendFail
        else okRes (set_state st2 Menu.file none none) [Reply.delivered]
  | some Action.rename_wait_file =>
    match download_telegram_file env doc localPath st with
    | Except.error e => errRes st e
    | Except.ok st1 =>
      okRes (set_state st1 Menu.file (some Action.rename_wait_newname) (some localPath)) []
  | some Action.merge_collect =>
    if kind ≠ Kind.pdf then okRes st [Reply.onlyPdf]
    else
      match download_telegram_file env doc localPath st with
      | Except.error e => errRes st e
      | Except.ok st1 =>
        okRes { st1 with mergeBucket := some (st1.mergeBucket.getD [] ++ [localPath]) }
          [Reply.added]
  | some Action.img2pdf_collect =>
    if kind ≠ Kind.image then okRes st [Reply.onlyImage]
    else
      match download_telegram_file env doc localPath st with
      | Except.error e => errRes st e
      | Except.ok st1 =>
        okRes { st1 with imgBucket := some (st1.imgBucket.getD [] ++ [localPath]) }
          [Reply.added]
  | _ => okRes st [Reply.pickTask]

/-- The `rename_wait_newname` text branch.  `do_rename` sanitizes the new
name and raises on an empty result or a failing `Path.rename`; the handler
catches that, replies, and returns without touching the state. -/
def handleRenameNew (env : Env) (msg : Msg) (st : BotState) : HRes :=
  let newName := pyStrip (msg.text.getD [])
  if newName.isEmpty then okRes st [Reply.sendValidFilename]
  else
    match st.renamePath with
    | none => okRes (set_state st Menu.file none none) [Reply.sessionExpired]
    | some fpath =>
      let sf := safe_filename newName
      if sf.isEmpty then okRes st [Reply.renameFailed]
      else if env.renameOk = false then okRes st [Reply.renameFailed]
      else
        let target := fpath.dropLast ++ [sf]
        let st1 := { st with workFiles := st.workFiles.erase fpath ++ [target] }
        if env.sendOk = false then errRes st1 Err.sendFail
        else okRes (set_state st1 Menu.file none none) [Reply.delivered]

/-- The `proxy_wait` text branch. -/
def handleProxyWait (msg : Msg) (st : BotState) : HRes :=
  let p := pyStrip (msg.text.getD [])
  if proxy_re_match p = false then okRes st [Reply.proxyBad]
  else okRes (set_state { st with userProxy := some p } Menu.proxy none none)
    [Reply.proxySaved]

/-- The `text2pdf_wait_text` branch. -/
def handleText2pdf (env : Env) (msg : Msg) (st : BotState) : HRes :=
  let txt := msg.text.getD []
  if (pyStrip txt).isEmpty then okRes st [Reply.sendText]
  else if env.maxTextLen < txt.length then okRes st [Reply.textTooLong]
  else if env.opOk = false then errRes st Err.opFail
  else
    let out := odirP ++ [safe_filename (codes ("text.pdf"))]
    let st1 := { st with outputFiles := st.outputFiles ++ [out] }
    if env.sendOk = false then errRes st1 Err.sendFail
    else okRes (set_state st1 Menu.file none none) [Reply.delivered]

/-- `action.startswith("dl_wait_link")`. -/
def isDlWait : Option Action → Bool
  | some Action.dl_wait_link_auto => true
  | some Action.dl_wait_link_yt => true
  | some Action.dl_wait_link_gdrive => true
  | some Action.dl_wait_link_mega => true
  | some Action.dl_wait_link_pixeldrain => true
  | _ => false

/-- The downloader-link text branch: whatever happens inside the
`try/except Exception/finally` (including the unrecognized-link `return`),
the `finally` runs `set_state(user_id, "dl", None)` and every exception is
caught.  Files written under `downloads/` are not referenced by any claim
and are elided. -/
def handleDl (msg : Msg) (st : BotState) : HRes :=
  let url := pyStrip (msg.text.getD [])
  if url.isEmpty then okRes st [Reply.sendValidLink]
  else okRes (set_state st Menu.dl none none) []

/-- `bot.handle_message`: the dispatch, in source order. -/
def handle_message (env : Env) (msg : Msg) (st : BotState) : HRes :=
  if st.action = some Action.proxy_wait then handleProxyWait msg st
  else if st.action = some Action.text2pdf_wait_text then handleText2pdf env msg st
  else
    match msg.document with
    | some doc => handleDoc env doc st
    | none =>
      if st.action = some Action.rename_wait_newname then handleRenameNew env msg st
      else if isDlWait st.action then handleDl msg st
      else okRes st [Reply.pickTask]

/-- Commands of the `menu:` callbacks; `back` (and anything unrecognized)
falls to the main-menu branch. -/
inductive MenuCmd
  | file | dl | proxy | back
deriving DecidableEq, Repr

/-- `bot.menu_nav`. -/
def menu_nav (cmd : MenuCmd) (st : BotState) : BotState :=
  match cmd with
  | MenuCmd.file => set_state st Menu.file none none
  | MenuCmd.dl => set_state st Menu.dl none none
  | MenuCmd.proxy => set_state st Menu.proxy none none
  | MenuCmd.back => set_state st Menu.main none none

/-- Commands of the `file:` callbacks. -/
inductive FileCmd
  | zip | unzip | rename | text2pdf | img2pdf | mergepdf
deriving DecidableEq, Repr

/-- `bot.file_actions`. -/
def file_actions (cmd : FileCmd) (st : BotState) : BotState :=
  match cmd with
  | FileCmd.zip => set_state st Menu.file (some Action.zip_wait_file) none
  | FileCmd.unzip => set_state st Menu.file (some Action.unzip_wait_zip) none
  | FileCmd.rename => set_state st Menu.file (some Action.rename_wait_file) none
  | FileCmd.text2pdf => set_state st Menu.file (some Action.text2pdf_wait_text) none
  | FileCmd.img2pdf =>
    set_state { st with imgBucket := some [] } Menu.file (some Action.img2pdf_collect) none
  | FileCmd.mergepdf =>
    set_state { st with mergeBucket := some [] } Menu.file (some Action.merge_collect) none

/-- Commands of the `proxy:` callbacks. -/
inductive ProxyCmd
  | pset | pclear | pshow
deriving DecidableEq, Repr

/-- `bot.proxy_actions`. -/
def proxy_actions (cmd : ProxyCmd) (st : BotState) : BotState :=
  match cmd with
  | ProxyCmd.pset => set_state st Menu.proxy (some Action.proxy_wait) none
  | ProxyCmd.pclear => { st with userProxy := none }
  | ProxyCmd.pshow => st

/-- Commands of the `dl:` callbacks. -/
inductive DlCmd
  | auto | yt | gdrive | mega | pixeldrain
deriving DecidableEq, Repr

/-- `bot.dl_actions`. -/
def dl_actions (cmd : DlCmd) (st : BotState) : BotState :=
  match cmd with
  | DlCmd.auto => set_state st Menu.dl (some Action.dl_wait_link_auto) none
  | DlCmd.yt => set_state st Menu.dl (some Action.dl_wait_link_yt) none
  | DlCmd.gdrive => set_state st Menu.dl (some Action.dl_wait_link_gdrive) none
  | DlCmd.mega => set_state st Menu.dl (some Action.dl_wait_link_mega) none
  | DlCmd.pixeldrain => set_state st Menu.dl (some Action.dl_wait_link_pixeldrain) none

/-- Commands of the `merge:` / `imgpdf:` control callbacks. -/
inductive CtlCmd
  | done | clear | cancel
deriving DecidableEq, Repr

/-- `bot.merge_controls`: `done` with fewer than two pdfs only replies;
with enough pdfs the `finally` pops the bucket even when the merge or the
send raises, while `set_state` runs only when nothing escapes. -/
def merge_controls (env : Env) (cmd : CtlCmd) (st : BotState) : HRes :=
  match cmd with
  | CtlCmd.clear => okRes { st with mergeBucket := some [] } [Reply.cleared]
  | CtlCmd.cancel =>
    okRes (set_state { st with mergeBucket := none } Menu.file none none) [Reply.cancelled]
  | CtlCmd.done =>
    let pdfs := st.mergeBucket.getD []
    if pdfs.length < 2 then okRes st [Reply.needTwoPdfs]
    else if env.opOk = false then
      { state := { st with mergeBucket := none }, err := some Err.opFail,
        replies := [], mergeCalls := [pdfs] }
    else
      let out := odirP ++ [safe_filename (codes ("merged.pdf"))]
      let st1 := { st with outputFiles := st.outputFiles ++ [out] }
      if env.sendOk = false then
        { state := { st1 with mergeBucket := none }, err := some Err.sendFail,
          replies := [], mergeCalls := [pdfs] }
      else
        { state := set_state { st1 with mergeBucket := none } Menu.file none none,
          err := none, replies := [Reply.delivered], mergeCalls := [pdfs] }

/-- `bot.imgpdf_controls` (same shape, for the image bucket). -/
def imgpdf_controls (env : Env) (cmd : CtlCmd) (st : BotState) : HRes :=
  match cmd with
  | CtlCmd.clear => okRes { st with imgBucket := some [] } [Reply.cleared]
  | CtlCmd.cancel =>
    okRes (set_state { st with imgBucket := none } Menu.file none none) [Reply.cancelled]
  | CtlCmd.done =>
    let imgs := st.imgBucket.getD []
    if imgs.length < 1 then okRes st [Reply.needOneImage]
    else if env.opOk = false then
      { state := { st with imgBucket := none }, err := some Err.opFail,
        replies := [], mergeCalls := [] }
    else
      let out := odirP ++ [safe_filename (codes ("images.pdf"))]
      let st1 := { st with outputFiles := st.outputFiles ++ [out] }
      if env.sendOk = false then
        { state := { st1 with imgBucket := none }, err := some Err.sendFail,
          replies := [], mergeCalls := [] }
      else
        { state := set_state { st1 with imgBucket := none } Menu.file none none,
          err := none, replies := [Reply.delivered], mergeCalls := [] }

/-- `app.merge_controls` (webhook variant): adds the `FREE_MODE` cap of 10
pdfs; it has no `try/finally`, so a failing merge or send leaves both the
bucket and the session state in place. -/
def merge_controls_app (freeMode : Bool) (env : Env) (cmd : CtlCmd) (st : BotState) :
    HRes :=
  match cmd with
  | CtlCmd.clear => okRes { st with mergeBucket := some [] } [Reply.cleared]
  | CtlCmd.cancel =>
    okRes (set_state { st with mergeBucket := none } Menu.file none none) [Reply.cancelled]
  | CtlCmd.done =>
    let pdfs := st.mergeBucket.getD []
    if pdfs.length < 2 then okRes st [Reply.needTwoPdfs]
    else if freeMode && decide (10 < pdfs.length) then okRes st [Reply.freeModeCap]
    else if env.opOk = false then
      { state := st, err := some Err.opFail, replies := [], mergeCalls := [pdfs] }
    else
      let out := odirP ++ [codes ("merged.pdf")]
      let st1 := { st with outputFiles := st.outputFiles ++ [out] }
      if env.sendOk = false then
        { state := st1, err := some Err.sendFail, replies := [], mergeCalls := [pdfs] }
      else
        { state := set_state { st1 with mergeBucket := none } Menu.file none none,
          err := none, replies := [Reply.delivered], mergeCalls := [pdfs] }

/-! ### `utils.zip_paths` over a model filesystem -/

/-- A model filesystem: the component paths of its regular files.  A path is
a directory iff it is a proper prefix of some file's path. -/
def isDirIn (fs : List PathT) (p : PathT) : Bool :=
  fs.any (fun f => p.isPrefixOf f && decide (p ≠ f))

/-- `p.rglob("*")` filtered by `is_file()`: the files strictly below `p`. -/
def filesUnder (fs : List PathT) (p : PathT) : List PathT :=
  fs.filter (fun f => p.isPrefixOf f && decide (p ≠ f))

/-- `utils.zip_paths`: the `(arcname, source)` entries written into the
archive.  A directory is recursed and each file under it stored relative to
the directory's own parent (`sub.relative_to(p.parent)` keeps the last
component of `p`, i.e. drops `len(p) - 1` leading components); any other
path is stored under its bare name `p.name`. -/
def zip_paths (fs : List PathT) (paths : List PathT) : List (PathT × PathT) :=
  paths.flatMap (fun p =>
    if isDirIn fs p then
      (filesUnder fs p).map (fun f => (f.drop (p.length - 1), f))
    else
      [([p.getLastD []], p)])

/-! ### `storage.cleanup_old` -/

/-- An immediate child of the storage base directory. -/
structure Entry where
  isDir : Bool
  mtime : Int
deriving DecidableEq, Repr

/-- The storage base directory: whether it exists, and its immediate
children in iteration order. -/
structure BaseDir where
  present : Bool
  children : List Entry
deriving DecidableEq, Repr

/-- The loop of `cleanup_old`: skip non-directories, recursively remove
(`shutil.rmtree(child, ignore_errors=True)`, best effort) directories whose
mtime is older than the cutoff, and count each attempt.  `deleteOk` tells
which removals the filesystem lets succeed; a failure is silent and still
counted.  Returns the returned count and the entries actually removed. -/
def sweepLoop (deleteOk : Entry → Bool) (cutoff : Int) : List Entry → Nat × List Entry
  | [] => (0, [])
  | e :: rest =>
    let r := sweepLoop deleteOk cutoff rest
    if e.isDir = false then r
    else if e.mtime < cutoff then
      (r.1 + 1, if deleteOk e then e :: r.2 else r.2)
    else r

/-- `storage.cleanup_old(base, older_than_hours)`, with `now` the current
time in seconds: 0 when the base directory is missing, else a sweep of the
immediate children against `now - older_than_hours * 3600`. -/
def cleanup_old (deleteOk : Entry → Bool) (bd : BaseDir) (now olderThanHours : Int) :
    Nat × List Entry :=
  if bd.present = false then (0, [])
  else sweepLoop deleteOk (now - olderThanHours * 3600) bd.children

/-! ### Concrete inputs used by counterexamples and witnesses -/

/-- An environment where every external call succeeds. -/
def envAllOk : Env :=
  { maxFileBytes := 1992294400, maxTextLen := 200000, transferOk := true,
    opOk := true, sendOk := true, isZipOk := true, renameOk := true }

def cBad : Str := List.replicate 179 97 ++ [32, 98]

/-! ### Lemmas and theorems -/

lemma collapse_mem : ∀ (l : Str) (b : Bool) (c : Nat),
    c ∈ collapseWsAux b l → c = 32 ∨ (c ∈ l ∧ isSpace c = false) := by
  intro l
  induction l with
  | nil => intro b c h; cases b <;> simp [collapseWsAux] at h
  | cons a rest ih =>
    intro b c h
    by_cases ha : isSpace a
    · cases b with
      | true =>
        rw [show collapseWsAux true (a :: rest) = collapseWsAux true rest by
          simp [collapseWsAux, ha]] at h
        rcases ih true c h with h32 | ⟨hm, hs⟩
        · exact Or.inl h32
        · exact Or.inr ⟨List.mem_cons_of_mem _ hm, hs⟩
      | false =>
        rw [show collapseWsAux false (a :: rest) = 32 :: collapseWsAux true rest by
          simp [collapseWsAux, ha]] at h
        rcases List.mem_cons.mp h with rfl | h2
        · exact Or.inl rfl
        · rcases ih true c h2 with h32 | ⟨hm, hs⟩
          · exact Or.inl h32
          · exact Or.inr ⟨List.mem_cons_of_mem _ hm, hs⟩
    · have hrw : collapseWsAux b (a :: rest) = a :: collapseWsAux false rest := by
        cases b <;> simp [collapseWsAux, ha]
      rw [hrw] at h
      rcases List.mem_cons.mp h with rfl | h2
      · exact Or.inr ⟨List.mem_cons_self _ _, by simpa using ha⟩
      · rcases ih false c h2 with h32 | ⟨hm, hs⟩
        · exact Or.inl h32
        · exact Or.inr ⟨List.mem_cons_of_mem _ hm, hs⟩

lemma collapse_head_true : ∀ (l : Str) (c : Nat),
    (collapseWsAux true l).head? = some c → isSpace c = false := by
  intro l
  induction l with
  | nil => intro c h; simp [collapseWsAux] at h
  | cons a rest ih =>
    intro c h
    by_cases ha : isSpace a
    · rw [show collapseWsAux true (a :: rest) = collapseWsAux true rest by
        simp [collapseWsAux, ha]] at h
      exact ih c h
    · rw [show collapseWsAux true (a :: rest) = a :: collapseWsAux false rest by
        simp [collapseWsAux, ha]] at h
      simp only [List.head?_cons, Option.some.injEq] at h
      subst h; simpa using ha

lemma noRun_tail {c : Nat} {l : Str} (h : noRun (c :: l) = true) : noRun l = true := by
  cases l with
  | nil => rfl
  | cons d r => simp only [noRun, Bool.and_eq_true] at h; exact h.2

lemma collapse_noRun : ∀ (l : Str) (b : Bool), noRun (collapseWsAux b l) = true := by
  intro l
  induction l with
  | nil => intro b; cases b <;> rfl
  | cons a rest ih =>
    intro b
    by_cases ha : isSpace a
    · cases b with
      | true =>
        rw [show collapseWsAux true (a :: rest) = collapseWsAux true rest by
          simp [collapseWsAux, ha]]
        exact ih true
      | false =>
        rw [show collapseWsAux false (a :: rest) = 32 :: collapseWsAux true rest by
          simp [collapseWsAux, ha]]
        rcases hr : collapseWsAux true rest with _ | ⟨d, r2⟩
        · rfl
        · have hd : isSpace d = false := collapse_head_true rest d (by rw [hr]; rfl)
          have h2 := ih true
          rw [hr] at h2
          simp only [noRun, Bool.and_eq_true, Bool.not_eq_true', Bool.and_eq_false_iff]
          exact ⟨Or.inr hd, h2⟩
    · have hrw : collapseWsAux b (a :: rest) = a :: collapseWsAux false rest := by
        cases b <;> simp [collapseWsAux, ha]
      rw [hrw]
      rcases hr : collapseWsAux false rest with _ | ⟨d, r2⟩
      · rfl
      · have h2 := ih false
        rw [hr] at h2
        simp only [noRun, Bool.and_eq_true, Bool.not_eq_true', Bool.and_eq_false_iff]
        exact ⟨Or.inl (by simpa using ha), h2⟩

lemma noRun_take : ∀ (l : Str) (n : Nat), noRun l = true → noRun (l.take n) = true := by
  intro l
  induction l with
  | nil => intro n _; simp [noRun]
  | cons a rest ih =>
    intro n h
    cases n with
    | zero => rfl
    | succ m =>
      simp only [List.take_succ_cons]
      cases rest with
      | nil => simp [noRun]
      | cons d r2 =>
        cases m with
        | zero => simp [noRun, List.take]
        | succ k =>
          simp only [noRun, Bool.and_eq_true] at h
          have h2 := ih (k + 1) h.2
          simp only [List.take_succ_cons] at h2 ⊢
          simp only [noRun, Bool.and_eq_true]
          exact ⟨h.1, h2⟩

lemma collapse_id : ∀ (l : Str) (b : Bool),
    noRun l = true →
    (∀ c ∈ l, isSpace c = true → c = 32) →
    (b = true → ∀ c, l.head? = some c → isSpace c = false) →
    collapseWsAux b l = l := by
  intro l
  induction l with
  | nil => intro b _ _ _; cases b <;> rfl
  | cons a rest ih =>
    intro b hnr hsp hb
    by_cases ha : isSpace a
    · have ha32 : a = 32 := hsp a (List.mem_cons_self _ _) (by simpa using ha)
      have hresthead : ∀ c, rest.head? = some c → isSpace c = false := by
        intro c hc
        cases rest with
        | nil => simp at hc
        | cons d r2 =>
          simp only [List.head?_cons, Option.some.injEq] at hc
          subst hc
          simp only [noRun, Bool.and_eq_true, Bool.not_eq_true',
            Bool.and_eq_false_iff] at hnr
          rcases hnr.1 with h1 | h1
          · exact absurd ha (by simp [h1])
          · exact h1
      have hrest : collapseWsAux true rest = rest :=
        ih true (noRun_tail hnr)
          (fun c hc hs => hsp c (List.mem_cons_of_mem _ hc) hs)
          (fun _ => hresthead)
      cases b with
      | true => exact absurd ha (by simp [hb rfl a (List.head?_cons)])
      | false =>
        rw [show collapseWsAux false (a :: rest) = 32 :: collapseWsAux true rest by
          simp [collapseWsAux, ha]]
        rw [hrest, ha32]
    · have hrest : collapseWsAux false rest = rest :=
        ih false (noRun_tail hnr)
          (fun c hc hs => hsp c (List.mem_cons_of_mem _ hc) hs)
          (fun h => absurd h (by simp))
      have hrw : collapseWsAux b (a :: rest) = a :: collapseWsAux false rest := by
        cases b <;> simp [collapseWsAux, ha]
      rw [hrw, hrest]

lemma head_dropWhile {p : Nat → Bool} : ∀ {l : Str} {c : Nat},
    (l.dropWhile p).head? = some c → p c = false := by
  intro l
  induction l with
  | nil => intro c h; simp [List.dropWhile] at h
  | cons a rest ih =>
    intro c h
    by_cases ha : p a
    · rw [List.dropWhile_cons_of_pos ha] at h
      exact ih h
    · rw [List.dropWhile_cons_of_neg ha] at h
      simp only [List.head?_cons, Option.some.injEq] at h
      subst h; simpa using ha

lemma pyStripRight_append (l : Str) : ∃ t, pyStripRight l ++ t = l := by
  refine ⟨(l.reverse.takeWhile isSpace).reverse, ?_⟩
  unfold pyStripRight
  rw [← List.reverse_append, List.takeWhile_append_dropWhile, List.reverse_reverse]

lemma pyStrip_head : ∀ {s : Str} {c : Nat}, (pyStrip s).head? = some c →
    isSpace c = false := by
  intro s c h
  unfold pyStrip at h
  rcases pyStripRight_append (pyStripLeft s) with ⟨t, ht⟩
  rcases he : pyStripRight (pyStripLeft s) with _ | ⟨d, r⟩
  · rw [he] at h; simp at h
  · rw [he] at h ht
    simp only [List.head?_cons, Option.some.injEq] at h
    rw [← h]
    have hh : (pyStripLeft s).head? = some d := by rw [← ht]; rfl
    exact head_dropWhile hh

lemma mapIdOn : ∀ (l : Str) (f : Nat → Nat), (∀ c ∈ l, f c = c) → l.map f = l := by
  intro l f
  induction l with
  | nil => intro _; rfl
  | cons a r ih =>
    intro h
    simp only [List.map_cons]
    rw [h a (List.mem_cons_self _ _), ih (fun c hc => h c (List.mem_cons_of_mem _ hc))]

lemma nonspace_step {c : Nat} (h : isSpace c = false) :
    isSpace (subIllegal (nlToSpace c)) = false := by
  have h10 : c ≠ 10 := by rintro rfl; simp [isSpace, pyWsChars] at h
  unfold nlToSpace subIllegal
  rw [if_neg h10]
  by_cases hi : isIllegal c
  · rw [if_pos hi]; decide
  · rw [if_neg hi]; exact h

lemma isIllegal_subIllegal (c : Nat) : isIllegal (subIllegal c) = false := by
  unfold subIllegal
  by_cases hi : isIllegal c
  · rw [if_pos hi]; decide
  · rw [if_neg hi]; simpa using hi

lemma head?_take180 : ∀ {l : Str} {c : Nat}, (l.take 180).head? = some c →
    l.head? = some c := by
  intro l c h
  cases l with
  | nil => simp at h
  | cons a r =>
    rw [show (180 : Nat) = 179 + 1 from rfl, List.take_succ_cons] at h
    simpa using h

lemma safe_filename_chars {s : Str} : ∀ c ∈ safe_filename s,
    isIllegal c = false ∧ (isSpace c = true → c = 32) := by
  intro c hc
  unfold safe_filename at hc
  have hz := List.take_subset 180 _ hc
  rcases collapse_mem _ false c hz with rfl | ⟨hm, hns⟩
  · exact ⟨by decide, fun _ => rfl⟩
  · rcases List.mem_map.mp hm with ⟨d, _, rfl⟩
    refine ⟨isIllegal_subIllegal d, fun hs => ?_⟩
    rw [hns] at hs; cases hs

lemma safe_filename_len (s : Str) : (safe_filename s).length ≤ 180 := by
  unfold safe_filename
  rw [List.length_take]
  exact Nat.min_le_left _ _

lemma mapped_head : ∀ {s : Str} {d : Nat},
    ((((pyStrip s).map nlToSpace).map subIllegal).head? = some d) →
    isSpace d = false := by
  intro s d h
  rw [List.head?_map, List.head?_map] at h
  rcases hh : (pyStrip s).head? with _ | f
  · rw [hh] at h; simp at h
  · rw [hh] at h
    simp only [Option.map_some', Option.some.injEq] at h
    rw [← h]
    exact nonspace_step (pyStrip_head hh)

lemma safe_filename_head {s : Str} : ∀ (c : Nat),
    (safe_filename s).head? = some c → isSpace c = false := by
  intro c h
  unfold safe_filename at h
  have hz := head?_take180 h
  rcases hm : ((pyStrip s).map nlToSpace).map subIllegal with _ | ⟨d, r⟩
  · rw [hm] at hz; simp [collapseWs, collapseWsAux] at hz
  · have hd : isSpace d = false := mapped_head (by rw [hm]; rfl)
    rw [hm] at hz
    rw [show collapseWs (d :: r) = d :: collapseWsAux false r by
      simp [collapseWs, collapseWsAux, hd]] at hz
    simp only [List.head?_cons, Option.some.injEq] at hz
    rw [← hz]; exact hd

lemma safe_filename_noRun (s : Str) : noRun (safe_filename s) = true :=
  noRun_take _ 180 (collapse_noRun _ false)

lemma safe_filename_fixed : ∀ {y : Str},
    (∀ c ∈ y, isIllegal c = false ∧ (isSpace c = true → c = 32)) →
    (∀ c, y.head? = some c → isSpace c = false) →
    noRun y = true →
    y.length ≤ 180 →
    y.getLast? ≠ some 32 →
    safe_filename y = y := by
  intro y hchars hhead hnr hlen hlast
  have hlastc : ∀ c, y.getLast? = some c → isSpace c = false := by
    intro c hc
    by_cases hs : isSpace c
    · have hcm : c ∈ y := by
        rw [List.getLast?_eq_head?_reverse] at hc
        exact List.mem_reverse.mp (List.mem_of_mem_head? (Option.mem_def.mpr hc))
      have := (hchars c hcm).2 (by simpa using hs)
      subst this
      exact absurd hc hlast
    · simpa using hs
  have hstripL : pyStripLeft y = y := by
    rcases hyy : y with _ | ⟨c, r⟩
    · rfl
    · have hns := hhead c (by rw [hyy]; rfl)
      rw [← hyy]
      unfold pyStripLeft
      rw [hyy, List.dropWhile_cons_of_neg (by simp [hns]), ← hyy]
  have hstripR : pyStripRight y = y := by
    unfold pyStripRight
    rcases hrev : y.reverse with _ | ⟨c, r⟩
    · have : y = [] := by simpa using congrArg List.reverse hrev
      rw [this]; rfl
    · have hcy : y.getLast? = some c := by
        rw [List.getLast?_eq_head?_reverse, hrev]; rfl
      have hns := hlastc c hcy
      rw [List.dropWhile_cons_of_neg (by simp [hns]), ← hrev, List.reverse_reverse]
  have hmapNl : y.map nlToSpace = y := by
    apply mapIdOn
    intro c hc
    unfold nlToSpace
    rw [if_neg]
    intro h10; subst h10
    have := (hchars 10 hc).2 (by decide)
    cases this
  have hmapSub : y.map subIllegal = y := by
    apply mapIdOn
    intro c hc
    unfold subIllegal
    rw [if_neg (by simp [(hchars c hc).1])]
  have hcoll : collapseWs y = y := by
    unfold collapseWs
    exact collapse_id y false hnr (fun c hc => (hchars c hc).2)
      (fun h => absurd h (by simp))
  have htake : y.take 180 = y := List.take_of_length_le hlen
  unfold safe_filename pyStrip
  rw [hstripL, hstripR, hmapNl, hmapSub, hcoll, htake]

set_option maxRecDepth 8000 in
theorem safe_filename_not_idem :
    safe_filename (safe_filename cBad) ≠ safe_filename cBad := by decide

/-- C1 amended -/
theorem safe_filename_ok (s : Str) :
    (∀ c ∈ safe_filename s, isIllegal c = false) ∧
    (safe_filename s).length ≤ 180 ∧
    ((safe_filename s).getLast? ≠ some 32 →
      safe_filename (safe_filename s) = safe_filename s) := by
  refine ⟨fun c hc => (safe_filename_chars c hc).1, safe_filename_len s, fun hlast => ?_⟩
  exact safe_filename_fixed safe_filename_chars safe_filename_head
    (safe_filename_noRun s) (safe_filename_len s) hlast

theorem safe_filename_ok_witness :
    (safe_filename (codes ("report v1.pdf"))).getLast? ≠ some 32 ∧
    safe_filename (safe_filename (codes ("report v1.pdf"))) =
      safe_filename (codes ("report v1.pdf")) :=
  ⟨by decide, (safe_filename_ok (codes ("report v1.pdf"))).2.2 (by decide)⟩



/-! #### C9: the storage sweep -/

lemma sweepLoop_eq (dok : Entry → Bool) (cutoff : Int) : ∀ (l : List Entry),
    sweepLoop dok cutoff l =
      ((l.filter (fun e => e.isDir && decide (e.mtime < cutoff))).length,
       (l.filter (fun e => e.isDir && decide (e.mtime < cutoff))).filter dok) := by
  intro l
  induction l with
  | nil => rfl
  | cons e rest ih =>
    simp only [sweepLoop, ih, List.filter_cons]
    by_cases hd : e.isDir = false
    · simp [hd]
    · have hd2 : e.isDir = true := by simpa using hd
      by_cases hm : e.mtime < cutoff
      · by_cases hk : dok e = true
        · simp [hd2, hm, hk, List.filter_cons]
        · simp [hd2, hm, hk, List.filter_cons]
      · simp [hd2, hm]

/-- C9: `cleanup_old` looks only at the immediate children of the base
directory; it attempts to remove exactly the child directories whose mtime
is older than `now - hours * 3600` and returns their number, a total
function of the listing alone — the per-directory removal outcomes `dok`
cannot change the count or stop the sweep (`rmtree` failures are swallowed);
the entries actually removed are the old directories the filesystem let it
remove; a missing base yields 0. -/
theorem cleanup_old_spec (dok : Entry → Bool) (bd : BaseDir) (now hours : Int) :
    (bd.present = true →
      (cleanup_old dok bd now hours).1 =
        (bd.children.filter
          (fun e => e.isDir && decide (e.mtime < now - hours * 3600))).length ∧
      (cleanup_old dok bd now hours).2 =
        (bd.children.filter
          (fun e => e.isDir && decide (e.mtime < now - hours * 3600))).filter dok) ∧
    (bd.present = false → cleanup_old dok bd now hours = (0, [])) := by
  constructor
  · intro hp
    unfold cleanup_old
    rw [hp]
    simp [sweepLoop_eq]
  · intro hp
    unfold cleanup_old
    rw [hp]
    simp

/-- Witness for C9 at a concrete listing: one old directory (whose removal
the filesystem refuses), one old plain file, one fresh directory; the count
is still 1 and nothing was removed. -/
theorem cleanup_old_spec_witness :
    (cleanup_old (fun _ => false)
      { present := true,
        children := [{ isDir := true, mtime := 0 }, { isDir := false, mtime := 0 },
                     { isDir := true, mtime := 999999 }] } 1000000 24).1 = 1 ∧
    (cleanup_old (fun _ => false)
      { present := true,
        children := [{ isDir := true, mtime := 0 }, { isDir := false, mtime := 0 },
                     { isDir := true, mtime := 999999 }] } 1000000 24).2 = [] := by
  have h := (cleanup_old_spec (fun _ => false)
    { present := true,
      children := [{ isDir := true, mtime := 0 }, { isDir := false, mtime := 0 },
                   { isDir := true, mtime := 999999 }] } 1000000 24).1 rfl
  refine ⟨?_, ?_⟩
  · rw [h.1]; decide
  · rw [h.2]; decide

/-! #### C8: the URL classifier -/

/-- C8 counterexample: `https://mega.nz/youtu` contains the YouTube marker
`youtu` yet is classified `mega`, because the services are tested in
priority order. -/
theorem guess_downloader_cex :
    containsSub (codes ("youtu"))
      (lowerStr (pyStrip (codes ("https://mega.nz/youtu")))) = true ∧
    guess_downloader (codes ("https://mega.nz/youtu")) ≠ Service.youtube := by
  exact ⟨by decide, by decide⟩

/-- C8 (amended): the three concrete classifications of the spec hold, and
in general the classifier follows the priority order pixeldrain, gdrive,
mega, youtube on the stripped lowercased URL, with `unknown` when no marker
occurs. -/
theorem guess_downloader_spec :
    guess_downloader (codes ("https://youtu.be/abc123")) = Service.youtube ∧
    guess_downloader (codes ("https://mega.nz/file/xyz")) = Service.mega ∧
    guess_downloader (codes ("https://example.com/file")) = Service.unknown ∧
    (∀ url : Str,
      (containsSub (codes ("pixeldrain.com")) (lowerStr (pyStrip url)) = true →
        guess_downloader url = Service.pixeldrain) ∧
      (containsSub (codes ("pixeldrain.com")) (lowerStr (pyStrip url)) = false →
       containsSub (codes ("drive.google.com")) (lowerStr (pyStrip url)) = false →
       containsSub (codes ("mega.nz")) (lowerStr (pyStrip url)) = true →
        guess_downloader url = Service.mega) ∧
      (containsSub (codes ("pixeldrain.com")) (lowerStr (pyStrip url)) = false →
       containsSub (codes ("drive.google.com")) (lowerStr (pyStrip url)) = false →
       containsSub (codes ("mega.nz")) (lowerStr (pyStrip url)) = false →
       containsSub (codes ("youtu")) (lowerStr (pyStrip url)) = true →
        guess_downloader url = Service.youtube) ∧
      (containsSub (codes ("pixeldrain.com")) (lowerStr (pyStrip url)) = false →
       containsSub (codes ("drive.google.com")) (lowerStr (pyStrip url)) = false →
       containsSub (codes ("mega.nz")) (lowerStr (pyStrip url)) = false →
       containsSub (codes ("youtu")) (lowerStr (pyStrip url)) = false →
       containsSub (codes ("youtube.com")) (lowerStr (pyStrip url)) = false →
        guess_downloader url = Service.unknown)) := by
  refine ⟨by decide, by decide, by decide, fun url => ⟨?_, ?_, ?_, ?_⟩⟩
  · intro h1
    simp [guess_downloader, h1]
  · intro h1 h2 h3
    simp [guess_downloader, h1, h2, h3]
  · intro h1 h2 h3 h4
    simp [guess_downloader, h1, h2, h3, h4]
  · intro h1 h2 h3 h4 h5
    simp [guess_downloader, h1, h2, h3, h4, h5]

/-- Witness for C8's universally quantified part at a concrete URL. -/
theorem guess_downloader_spec_witness :
    guess_downloader (codes ("https://www.youtube.com/watch?v=1")) = Service.youtube := by
  have h := (guess_downloader_spec.2.2.2 (codes ("https://www.youtube.com/watch?v=1"))).2.2.1
  exact h (by decide) (by decide) (by decide) (by decide)

/-! #### C7: zip archive entry names -/

lemma isPrefixOf_append : ∀ {p f : PathT}, p.isPrefixOf f = true → ∃ r, f = p ++ r := by
  intro p
  induction p with
  | nil => intro f _; exact ⟨f, rfl⟩
  | cons a p2 ih =>
    intro f h
    cases f with
    | nil => simp [List.isPrefixOf] at h
    | cons b f2 =>
      simp only [List.isPrefixOf, Bool.and_eq_true, beq_iff_eq] at h
      rcases ih h.2 with ⟨r, hr⟩
      exact ⟨r, by rw [h.1, hr]; rfl⟩

lemma drop_parent : ∀ (p r : PathT), p ≠ [] →
    (p ++ r).drop (p.length - 1) = p.getLastD [] :: r := by
  intro p
  induction p with
  | nil => intro r h; cases h rfl
  | cons a p2 ih =>
    intro r _
    cases p2 with
    | nil => simp
    | cons b p3 =>
      have h2 := ih r (by simp)
      simp only [List.cons_append, List.length_cons, List.getLastD_cons,
        Nat.add_sub_cancel] at h2 ⊢
      rw [List.drop_succ_cons]
      exact h2

/-- C7: for a directory argument `p`, every file below it is stored under
its path relative to `p`'s parent — the last component of `p` followed by
the file's path below `p`, so the directory name is the archive's top-level
entry; a non-directory argument is stored under its bare name. -/
theorem zip_paths_spec (fs : List PathT) (paths : List PathT) (p : PathT)
    (hp : p ∈ paths) (hne : p ≠ []) :
    (isDirIn fs p = true →
      ∀ f ∈ filesUnder fs p,
        f.drop (p.length - 1) = p.getLastD [] :: f.drop p.length ∧
        (f.drop (p.length - 1), f) ∈ zip_paths fs paths) ∧
    (isDirIn fs p = false → ([p.getLastD []], p) ∈ zip_paths fs paths) := by
  constructor
  · intro hdir f hf
    have hmem := List.mem_filter.mp hf
    have hpre : p.isPrefixOf f = true := by
      have := hmem.2
      simp only [Bool.and_eq_true, decide_eq_true_eq] at this
      exact this.1
    rcases isPrefixOf_append hpre with ⟨r, rfl⟩
    have hdrop := drop_parent p r hne
    have hdropfull : (p ++ r).drop p.length = r := List.drop_left p r
    constructor
    · rw [hdrop, hdropfull]
    · unfold zip_paths
      rw [List.mem_flatMap]
      refine ⟨p, hp, ?_⟩
      rw [if_pos hdir]
      exact List.mem_map.mpr ⟨p ++ r, hf, rfl⟩
  · intro hdir
    unfold zip_paths
    rw [List.mem_flatMap]
    refine ⟨p, hp, ?_⟩
    rw [if_neg (by simp [hdir])]
    simp

/-- Witness for C7 on a concrete filesystem: zipping the directory `d`
(parent `u`) stores `u/d/x.txt` as `d/x.txt`, and zipping the lone file
`u/y.txt` stores it as `y.txt`. -/
theorem zip_paths_spec_witness :
    ([codes ("d"), codes ("x.txt")],
      [codes ("u"), codes ("d"), codes ("x.txt")]) ∈
      zip_paths [[codes ("u"), codes ("d"), codes ("x.txt")]]
        [[codes ("u"), codes ("d")]] ∧
    ([codes ("y.txt")], [codes ("u"), codes ("y.txt")]) ∈
      zip_paths [[codes ("u"), codes ("d"), codes ("x.txt")]]
        [[codes ("u"), codes ("y.txt")]] := by
  constructor
  · have h := ((zip_paths_spec [[codes ("u"), codes ("d"), codes ("x.txt")]]
      [[codes ("u"), codes ("d")]] [codes ("u"), codes ("d")]
      (by decide) (by decide)).1 (by decide)
      [codes ("u"), codes ("d"), codes ("x.txt")] (by decide)).2
    exact h
  · have h := (zip_paths_spec [[codes ("u"), codes ("d"), codes ("x.txt")]]
      [[codes ("u"), codes ("y.txt")]] [codes ("u"), codes ("y.txt")]
      (by decide) (by decide)).2 (by decide)
    exact h


/-! #### C4: merge `done` control -/

/-- C4: pressing merge `done` with fewer than two buffered pdfs replies
"need at least 2" and leaves the whole state (bucket included) unchanged,
in both bot variants; with at least two pdfs (and, in the webhook variant
under the restricted-mode flag, at most 10) a successful merge runs on
exactly the buffered list in order, the bucket is removed, the state resets
to `{menu: file, action: none}`, and `merged.pdf` is written; exceeding the
cap with the flag set replies guidance and changes nothing. -/
theorem merge_done_spec (freeMode : Bool) (env : Env) (st : BotState) (l : List PathT)
    (hb : st.mergeBucket = some l) :
    (l.length < 2 →
      merge_controls_app freeMode env CtlCmd.done st = okRes st [Reply.needTwoPdfs] ∧
      merge_controls env CtlCmd.done st = okRes st [Reply.needTwoPdfs]) ∧
    (2 ≤ l.length → (freeMode = true → l.length ≤ 10) →
      env.opOk = true → env.sendOk = true →
      (merge_controls_app freeMode env CtlCmd.done st).mergeCalls = [l] ∧
      (merge_controls_app freeMode env CtlCmd.done st).state.mergeBucket = none ∧
      (merge_controls_app freeMode env CtlCmd.done st).state.menu = Menu.file ∧
      (merge_controls_app freeMode env CtlCmd.done st).state.action = none ∧
      (merge_controls_app freeMode env CtlCmd.done st).state.outputFiles =
        st.outputFiles ++ [odirP ++ [codes ("merged.pdf")]] ∧
      (merge_controls_app freeMode env CtlCmd.done st).err = none) ∧
    (freeMode = true → 10 < l.length →
      merge_controls_app freeMode env CtlCmd.done st = okRes st [Reply.freeModeCap]) := by
  refine ⟨?_, ?_, ?_⟩
  · intro hlt
    constructor
    · simp [merge_controls_app, hb, hlt]
    · simp [merge_controls, hb, hlt]
  · intro hge hcap hop hsend
    have hnlt : ¬(l.length < 2) := by omega
    have hcap2 : (freeMode && decide (10 < l.length)) = false := by
      cases hf : freeMode
      · rfl
      · simp only [Bool.true_and, decide_eq_false_iff_not]
        have := hcap hf
        omega
    simp [merge_controls_app, hb, hnlt, hcap2, hop, hsend, set_state]
  · intro hf hgt
    have hnlt : ¬(l.length < 2) := by omega
    have hcap2 : (freeMode && decide (10 < l.length)) = true := by
      rw [hf]
      simpa using hgt
    simp [merge_controls_app, hb, hnlt, hcap2]

/-- Witness for C4: a two-element bucket merges, resets the state, and
records the input order. -/
theorem merge_done_spec_witness :
    (merge_controls_app true envAllOk CtlCmd.done
      { menu := Menu.file, action := some Action.merge_collect, renamePath := none,
        userProxy := none,
        mergeBucket := some [[codes ("work"), codes ("a.pdf")],
                             [codes ("work"), codes ("b.pdf")]],
        imgBucket := none, workFiles := [], outputFiles := [] }).mergeCalls =
      [[[codes ("work"), codes ("a.pdf")], [codes ("work"), codes ("b.pdf")]]] ∧
    (merge_controls_app true envAllOk CtlCmd.done
      { menu := Menu.file, action := some Action.merge_collect, renamePath := none,
        userProxy := none,
        mergeBucket := some [[codes ("work"), codes ("a.pdf")],
                             [codes ("work"), codes ("b.pdf")]],
        imgBucket := none, workFiles := [], outputFiles := [] }).state.action = none := by
  have h := (merge_done_spec true envAllOk
    { menu := Menu.file, action := some Action.merge_collect, renamePath := none,
      userProxy := none,
      mergeBucket := some [[codes ("work"), codes ("a.pdf")],
                           [codes ("work"), codes ("b.pdf")]],
      imgBucket := none, workFiles := [], outputFiles := [] }
    [[codes ("work"), codes ("a.pdf")], [codes ("work"), codes ("b.pdf")]]
    rfl).2.1 (by decide) (fun _ => by decide) rfl rfl
  exact ⟨h.1, h.2.2.2.1⟩

/-! #### C5: rename with a missing `rename_path` -/

/-- C5: in `rename_wait_newname`, a nonempty new name with no stored
`rename_path` yields the "session expired" reply, resets the state to
`{menu: file, action: none}`, raises nothing, and leaves every file in the
work and output areas untouched. -/
theorem rename_expired_spec (env : Env) (msg : Msg) (st : BotState)
    (ha : st.action = some Action.rename_wait_newname)
    (hdoc : msg.document = none)
    (hpath : st.renamePath = none)
    (ht : (pyStrip (msg.text.getD [])).isEmpty = false) :
    (handle_message env msg st).state.menu = Menu.file ∧
    (handle_message env msg st).state.action = none ∧
    (handle_message env msg st).replies = [Reply.sessionExpired] ∧
    (handle_message env msg st).err = none ∧
    (handle_message env msg st).state.workFiles = st.workFiles ∧
    (handle_message env msg st).state.outputFiles = st.outputFiles := by
  simp [handle_message, ha, hdoc, handleRenameNew, hpath, ht, okRes, set_state]

/-- Witness for C5: concrete desynced state. -/
theorem rename_expired_spec_witness :
    (handle_message envAllOk { text := some (codes ("new.pdf")), document := none }
      { menu := Menu.file, action := some Action.rename_wait_newname,
        renamePath := none, userProxy := none, mergeBucket := none, imgBucket := none,
        workFiles := [[codes ("work"), codes ("old.pdf")]], outputFiles := [] }).state.action
      = none ∧
    (handle_message envAllOk { text := some (codes ("new.pdf")), document := none }
      { menu := Menu.file, action := some Action.rename_wait_newname,
        renamePath := none, userProxy := none, mergeBucket := none, imgBucket := none,
        workFiles := [[codes ("work"), codes ("old.pdf")]], outputFiles := [] }).state.workFiles
      = [[codes ("work"), codes ("old.pdf")]] := by
  have h := rename_expired_spec envAllOk
    { text := some (codes ("new.pdf")), document := none }
    { menu := Menu.file, action := some Action.rename_wait_newname,
      renamePath := none, userProxy := none, mergeBucket := none, imgBucket := none,
      workFiles := [[codes ("work"), codes ("old.pdf")]], outputFiles := [] }
    rfl rfl rfl (by decide)
  exact ⟨h.2.1, h.2.2.2.2.1⟩

/-! #### C6: the proxy_wait validation -/

/-- C6 counterexample: the text `" http://x"` does not match
`^(http|https|socks5)://` (it starts with a space), yet it is accepted —
the handler strips the text before matching, saves the stripped proxy and
resets the action. -/
theorem proxy_wait_cex :
    proxy_re_match (codes (" http://x")) = false ∧
    (handle_message envAllOk { text := some (codes (" http://x")), document := none }
      { menu := Menu.proxy, action := some Action.proxy_wait, renamePath := none,
        userProxy := none, mergeBucket := none, imgBucket := none,
        workFiles := [], outputFiles := [] }).state.userProxy = some (codes ("http://x")) ∧
    (handle_message envAllOk { text := some (codes (" http://x")), document := none }
      { menu := Menu.proxy, action := some Action.proxy_wait, renamePath := none,
        userProxy := none, mergeBucket := none, imgBucket := none,
        workFiles := [], outputFiles := [] }).state.action = none := by
  exact ⟨by decide, by decide, by decide⟩

/-- C6 (amended): in `proxy_wait`, exactly the messages whose
whitespace-stripped text matches `^(http|https|socks5)://`
case-insensitively are accepted — the stripped proxy is saved and the
action resets to none; every other message (including `ftp://x`, empty, and
`http//x`) is rejected with the whole session state unchanged. -/
theorem proxy_wait_spec (env : Env) (msg : Msg) (st : BotState)
    (h : st.action = some Action.proxy_wait) :
    (proxy_re_match (pyStrip (msg.text.getD [])) = true →
      (handle_message env msg st).state =
        set_state { st with userProxy := some (pyStrip (msg.text.getD [])) }
          Menu.proxy none none ∧
      (handle_message env msg st).replies = [Reply.proxySaved]) ∧
    (proxy_re_match (pyStrip (msg.text.getD [])) = false →
      (handle_message env msg st).state = st ∧
      (handle_message env msg st).replies = [Reply.proxyBad]) := by
  constructor
  · intro hm
    simp [handle_message, h, handleProxyWait, hm, okRes]
  · intro hm
    simp [handle_message, h, handleProxyWait, hm, okRes]

/-- Witness for C6: `socks5://ip:port` is accepted, `ftp://x` is rejected
with the state untouched, and `httpſ://x` (long s, U+017F) is accepted via
CPython's Unicode case equivalence for `s`. -/
theorem proxy_wait_spec_witness :
    (handle_message envAllOk { text := some (codes ("socks5://ip:port")), document := none }
      { menu := Menu.proxy, action := some Action.proxy_wait, renamePath := none,
        userProxy := none, mergeBucket := none, imgBucket := none,
        workFiles := [], outputFiles := [] }).state =
      set_state
        { menu := Menu.proxy, action := some Action.proxy_wait, renamePath := none,
          userProxy := some (codes ("socks5://ip:port")), mergeBucket := none,
          imgBucket := none, workFiles := [], outputFiles := [] }
        Menu.proxy none none ∧
    (handle_message envAllOk { text := some (codes ("ftp://x")), document := none }
      { menu := Menu.proxy, action := some Action.proxy_wait, renamePath := none,
        userProxy := none, mergeBucket := none, imgBucket := none,
        workFiles := [], outputFiles := [] }).state =
      { menu := Menu.proxy, action := some Action.proxy_wait, renamePath := none,
        userProxy := none, mergeBucket := none, imgBucket := none,
        workFiles := [], outputFiles := [] } ∧
    (handle_message envAllOk { text := some (codes ("httpſ://x")), document := none }
      { menu := Menu.proxy, action := some Action.proxy_wait, renamePath := none,
        userProxy := none, mergeBucket := none, imgBucket := none,
        workFiles := [], outputFiles := [] }).state.action = none := by
  refine ⟨?_, ?_, ?_⟩
  · have h := ((proxy_wait_spec envAllOk
      { text := some (codes ("socks5://ip:port")), document := none }
      { menu := Menu.proxy, action := some Action.proxy_wait, renamePath := none,
        userProxy := none, mergeBucket := none, imgBucket := none,
        workFiles := [], outputFiles := [] } rfl).1 (by decide)).1
    rw [h]
    decide
  · exact ((proxy_wait_spec envAllOk
      { text := some (codes ("ftp://x")), document := none }
      { menu := Menu.proxy, action := some Action.proxy_wait, renamePath := none,
        userProxy := none, mergeBucket := none, imgBucket := none,
        workFiles := [], outputFiles := [] } rfl).2 (by decide)).1
  · have h := ((proxy_wait_spec envAllOk
      { text := some (codes ("httpſ://x")), document := none }
      { menu := Menu.proxy, action := some Action.proxy_wait, renamePath := none,
        userProxy := none, mergeBucket := none, imgBucket := none,
        workFiles := [], outputFiles := [] } rfl).1 (by decide)).1
    rw [h]
    rfl


/-! #### Strip idempotence helpers (for the rename branch) -/

lemma stripLeft_id : ∀ {y : Str}, (∀ c, y.head? = some c → isSpace c = false) →
    pyStripLeft y = y := by
  intro y h
  rcases hyy : y with _ | ⟨c, r⟩
  · rfl
  · have hns := h c (by rw [hyy]; rfl)
    unfold pyStripLeft
    rw [List.dropWhile_cons_of_neg (by simp [hns])]

lemma stripRight_id : ∀ {y : Str}, (∀ c, y.getLast? = some c → isSpace c = false) →
    pyStripRight y = y := by
  intro y h
  unfold pyStripRight
  rcases hrev : y.reverse with _ | ⟨c, r⟩
  · have : y = [] := by simpa using congrArg List.reverse hrev
    rw [this]; rfl
  · have hcy : y.getLast? = some c := by
      rw [List.getLast?_eq_head?_reverse, hrev]; rfl
    have hns := h c hcy
    rw [List.dropWhile_cons_of_neg (by simp [hns]), ← hrev, List.reverse_reverse]

lemma pyStrip_last : ∀ {s : Str} {c : Nat}, (pyStrip s).getLast? = some c →
    isSpace c = false := by
  intro s c h
  rw [List.getLast?_eq_head?_reverse] at h
  unfold pyStrip pyStripRight at h
  rw [List.reverse_reverse] at h
  exact head_dropWhile h

lemma pyStrip_idem (s : Str) : pyStrip (pyStrip s) = pyStrip s := by
  show pyStripRight (pyStripLeft (pyStrip s)) = pyStrip s
  rw [stripLeft_id (fun c h => pyStrip_head h), stripRight_id (fun c h => pyStrip_last h)]

lemma safe_filename_strip_ne_nil : ∀ {t : Str}, (pyStrip t).isEmpty = false →
    (safe_filename (pyStrip t)).isEmpty = false := by
  intro t h
  unfold safe_filename
  rw [pyStrip_idem]
  rcases hy : pyStrip t with _ | ⟨c, r⟩
  · rw [hy] at h; cases h
  · have hns : isSpace c = false := pyStrip_head (by rw [hy]; rfl)
    have hns2 : isSpace (subIllegal (nlToSpace c)) = false := nonspace_step hns
    simp only [List.map_cons]
    rw [show collapseWs (subIllegal (nlToSpace c) :: ((r.map nlToSpace).map subIllegal)) =
        subIllegal (nlToSpace c) ::
          collapseWsAux false ((r.map nlToSpace).map subIllegal) by
      simp [collapseWs, collapseWsAux, hns2]]
    rfl

/-! #### C2: single-shot actions and state reset -/

/-- C2 counterexample: in `rename_wait_newname` with a stored path, a
failing rename is caught, replied, and the session is NOT reset — the
action stays `rename_wait_newname`, refuting "reset afterwards, whether the
operation succeeds or fails". -/
theorem single_shot_reset_cex :
    (handle_message
      { maxFileBytes := 1992294400, maxTextLen := 200000, transferOk := true,
        opOk := true, sendOk := true, isZipOk := true, renameOk := false }
      { text := some (codes ("new.pdf")), document := none }
      { menu := Menu.file, action := some Action.rename_wait_newname,
        renamePath := some [codes ("work"), codes ("old.pdf")], userProxy := none,
        mergeBucket := none, imgBucket := none, workFiles := [], outputFiles := [] }
      ).state.action = some Action.rename_wait_newname := by decide

/-- C2 (amended): for each single-shot action (zip, unzip, text-to-pdf,
proxy-set, rename-newname), an accepted input whose operation and delivery
succeed resets the session to `{menu: file|proxy, action: none}`; when the
operation fails, however, the handler stops without resetting — the wait
state stays active (proxy saving has no failure mode). -/
theorem single_shot_reset (env : Env) (msg : Msg) (st : BotState) :
    (st.action = some Action.proxy_wait →
      proxy_re_match (pyStrip (msg.text.getD [])) = true →
      (handle_message env msg st).state.menu = Menu.proxy ∧
      (handle_message env msg st).state.action = none) ∧
    (st.action = some Action.text2pdf_wait_text →
      (pyStrip (msg.text.getD [])).isEmpty = false →
      (msg.text.getD []).length ≤ env.maxTextLen →
      env.opOk = true → env.sendOk = true →
      (handle_message env msg st).state.menu = Menu.file ∧
      (handle_message env msg st).state.action = none) ∧
    (st.action = some Action.text2pdf_wait_text →
      (pyStrip (msg.text.getD [])).isEmpty = false →
      (msg.text.getD []).length ≤ env.maxTextLen →
      env.opOk = false →
      (handle_message env msg st).state = st ∧
      (handle_message env msg st).err = some Err.opFail) ∧
    (∀ doc, st.action = some Action.zip_wait_file → msg.document = some doc →
      sizeTooLarge env doc = false → env.transferOk = true →
      env.opOk = true → env.sendOk = true →
      (handle_message env msg st).state.menu = Menu.file ∧
      (handle_message env msg st).state.action = none) ∧
    (∀ doc, st.action = some Action.zip_wait_file → msg.document = some doc →
      sizeTooLarge env doc = false → env.transferOk = true → env.opOk = false →
      (handle_message env msg st).state.action = some Action.zip_wait_file ∧
      (handle_message env msg st).state.menu = st.menu ∧
      (handle_message env msg st).err = some Err.opFail) ∧
    (∀ doc, st.action = some Action.unzip_wait_zip → msg.document = some doc →
      sizeTooLarge env doc = false → env.transferOk = true → env.isZipOk = true →
      env.opOk = true → env.sendOk = true →
      (handle_message env msg st).state.menu = Menu.file ∧
      (handle_message env msg st).state.action = none) ∧
    (∀ doc, st.action = some Action.unzip_wait_zip → msg.document = some doc →
      sizeTooLarge env doc = false → env.transferOk = true → env.isZipOk = false →
      (handle_message env msg st).state.action = some Action.unzip_wait_zip ∧
      (handle_message env msg st).replies = [Reply.notValidZip]) ∧
    (∀ p, st.action = some Action.rename_wait_newname → msg.document = none →
      st.renamePath = some p →
      (pyStrip (msg.text.getD [])).isEmpty = false →
      env.renameOk = true → env.sendOk = true →
      (handle_message env msg st).state.menu = Menu.file ∧
      (handle_message env msg st).state.action = none) ∧
    (∀ p, st.action = some Action.rename_wait_newname → msg.document = none →
      st.renamePath = some p →
      (pyStrip (msg.text.getD [])).isEmpty = false →
      env.renameOk = false →
      (handle_message env msg st).state = st ∧
      (handle_message env msg st).replies = [Reply.renameFailed]) := by
  refine ⟨?_, ?_, ?_, ?_, ?_, ?_, ?_, ?_, ?_⟩
  · intro ha hm
    simp [handle_message, ha, handleProxyWait, hm, okRes, set_state]
  · intro ha ht hlen hop hsend
    have hlen2 : ¬(env.maxTextLen < (msg.text.getD []).length) := by omega
    simp [handle_message, ha, handleText2pdf, ht, hlen2, hop, hsend, okRes, set_state]
  · intro ha ht hlen hop
    have hlen2 : ¬(env.maxTextLen < (msg.text.getD []).length) := by omega
    simp [handle_message, ha, handleText2pdf, ht, hlen2, hop, errRes]
  · intro doc ha hdoc hbig htr hop hsend
    simp [handle_message, ha, hdoc, handleDoc, download_telegram_file, hbig, htr,
      hop, hsend, okRes, errRes, set_state]
  · intro doc ha hdoc hbig htr hop
    simp [handle_message, ha, hdoc, handleDoc, download_telegram_file, hbig, htr,
      hop, okRes, errRes]
  · intro doc ha hdoc hbig htr hzip hop hsend
    simp [handle_message, ha, hdoc, handleDoc, download_telegram_file, hbig, htr,
      hzip, hop, hsend, okRes, errRes, set_state]
  · intro doc ha hdoc hbig htr hzip
    simp [handle_message, ha, hdoc, handleDoc, download_telegram_file, hbig, htr,
      hzip, okRes]
  · intro p ha hdoc hpath ht hren hsend
    have hsf := safe_filename_strip_ne_nil ht
    simp [handle_message, ha, hdoc, handleRenameNew, hpath, ht, hsf, hren, hsend,
      okRes, errRes, set_state]
  · intro p ha hdoc hpath ht hren
    have hsf := safe_filename_strip_ne_nil ht
    simp [handle_message, ha, hdoc, handleRenameNew, hpath, ht, hsf, hren, okRes]

/-- Witness for C2: a successful zip attempt on a small document resets the
state to `{menu: file, action: none}`. -/
theorem single_shot_reset_witness :
    (handle_message envAllOk
      { text := none,
        document := some { fileName := some (codes ("notes.txt")), fileSize := some 120 } }
      { menu := Menu.file, action := some Action.zip_wait_file, renamePath := none,
        userProxy := none, mergeBucket := none, imgBucket := none,
        workFiles := [], outputFiles := [] }).state.menu = Menu.file ∧
    (handle_message envAllOk
      { text := none,
        document := some { fileName := some (codes ("notes.txt")), fileSize := some 120 } }
      { menu := Menu.file, action := some Action.zip_wait_file, renamePath := none,
        userProxy := none, mergeBucket := none, imgBucket := none,
        workFiles := [], outputFiles := [] }).state.action = none :=
  (single_shot_reset envAllOk
    { text := none,
      document := some { fileName := some (codes ("notes.txt")), fileSize := some 120 } }
    { menu := Menu.file, action := some Action.zip_wait_file, renamePath := none,
      userProxy := none, mergeBucket := none, imgBucket := none,
      workFiles := [], outputFiles := [] }).2.2.2.1
    { fileName := some (codes ("notes.txt")), fileSize := some 120 }
    rfl rfl (by decide) rfl rfl rfl

/-! #### C3: oversized documents -/

/-- C3 counterexample: an oversized document in the zip flow does not reset
the action to none — the raised "too large" error escapes before
`set_state`, so the action stays `zip_wait_file`. -/
theorem oversized_document_cex :
    (handle_message envAllOk
      { text := none,
        document := some { fileName := some (codes ("big.bin")),
                           fileSize := some 2000000000 } }
      { menu := Menu.file, action := some Action.zip_wait_file, renamePath := none,
        userProxy := none, mergeBucket := none, imgBucket := none,
        workFiles := [], outputFiles := [] }).state.action
      = some Action.zip_wait_file := by decide

/-- C3 (amended): a document whose reported size exceeds the ceiling raises
"too large" before any download (the whole state, work files included, is
exactly as before, even when the transport would have succeeded).  In the
collection flows the collect action and its buffer are left unchanged; in
the single-shot zip flow no partial output is left on disk, but the action
is NOT reset to none — it too stays unchanged. -/
theorem oversized_document_spec (env : Env) (msg : Msg) (doc : Doc) (st : BotState)
    (hdoc : msg.document = some doc) (hbig : sizeTooLarge env doc = true) :
    (st.action = some Action.merge_collect →
      detect_content_type_from_name (doc.fileName.getD (codes ("file.bin"))) = Kind.pdf →
      (handle_message env msg st).state = st ∧
      (handle_message env msg st).err = some Err.tooLarge) ∧
    (st.action = some Action.img2pdf_collect →
      detect_content_type_from_name (doc.fileName.getD (codes ("file.bin"))) = Kind.image →
      (handle_message env msg st).state = st ∧
      (handle_message env msg st).err = some Err.tooLarge) ∧
    (st.action = some Action.zip_wait_file →
      (handle_message env msg st).state = st ∧
      (handle_message env msg st).err = some Err.tooLarge) := by
  refine ⟨?_, ?_, ?_⟩
  · intro ha hk
    simp [handle_message, ha, hdoc, handleDoc, hk, download_telegram_file, hbig, errRes]
  · intro ha hk
    simp [handle_message, ha, hdoc, handleDoc, hk, download_telegram_file, hbig, errRes]
  · intro ha
    simp [handle_message, ha, hdoc, handleDoc, download_telegram_file, hbig, errRes]

/-- Witness for C3: an oversized pdf during merge collection leaves the
collect state and its one-element buffer untouched. -/
theorem oversized_document_spec_witness :
    (handle_message envAllOk
      { text := none,
        document := some { fileName := some (codes ("big.pdf")),
                           fileSize := some 2000000000 } }
      { menu := Menu.file, action := some Action.merge_collect, renamePath := none,
        userProxy := none, mergeBucket := some [[codes ("work"), codes ("a.pdf")]],
        imgBucket := none, workFiles := [], outputFiles := [] }).state =
      { menu := Menu.file, action := some Action.merge_collect, renamePath := none,
        userProxy := none, mergeBucket := some [[codes ("work"), codes ("a.pdf")]],
        imgBucket := none, workFiles := [], outputFiles := [] } :=
  ((oversized_document_spec envAllOk
    { text := none,
      document := some { fileName := some (codes ("big.pdf")),
                         fileSize := some 2000000000 } }
    { fileName := some (codes ("big.pdf")), fileSize := some 2000000000 }
    { menu := Menu.file, action := some Action.merge_collect, renamePath := none,
      userProxy := none, mergeBucket := some [[codes ("work"), codes ("a.pdf")]],
      imgBucket := none, workFiles := [], outputFiles := [] }
    rfl (by decide)).1 rfl (by decide)).1


/-! #### C10: the pending buffers are framed off every non-collect event -/

lemma download_cases (env : Env) (doc : Doc) (dest : PathT) (st : BotState) :
    download_telegram_file env doc dest st = Except.error Err.tooLarge ∨
    download_telegram_file env doc dest st = Except.error Err.transfer ∨
    download_telegram_file env doc dest st =
      Except.ok { st with workFiles := st.workFiles ++ [dest] } := by
  unfold download_telegram_file
  by_cases h1 : sizeTooLarge env doc
  · exact Or.inl (by rw [if_pos h1])
  · by_cases h2 : env.transferOk = false
    · exact Or.inr (Or.inl (by rw [if_neg h1, if_pos h2]))
    · exact Or.inr (Or.inr (by rw [if_neg h1, if_neg h2]))

lemma handleDoc_buckets (env : Env) (doc : Doc) (st : BotState) :
    ((handleDoc env doc st).state.mergeBucket = st.mergeBucket ∨
       st.action = some Action.merge_collect) ∧
    ((handleDoc env doc st).state.imgBucket = st.imgBucket ∨
       st.action = some Action.img2pdf_collect) := by
  have hdl := download_cases env doc
    (wdirP ++ [safe_filename (doc.fileName.getD (codes ("file.bin")))]) st
  rcases ha : st.action with _ | a
  · simp [handleDoc, ha, okRes]
  · cases a
    case merge_collect =>
      refine ⟨Or.inr rfl, Or.inl ?_⟩
      by_cases hk : detect_content_type_from_name
          (doc.fileName.getD (codes ("file.bin"))) = Kind.pdf
      · rcases hdl with h | h | h <;> simp [handleDoc, ha, hk, h, okRes, errRes]
      · simp [handleDoc, ha, hk, okRes]
    case img2pdf_collect =>
      refine ⟨Or.inl ?_, Or.inr rfl⟩
      by_cases hk : detect_content_type_from_name
          (doc.fileName.getD (codes ("file.bin"))) = Kind.image
      · rcases hdl with h | h | h <;> simp [handleDoc, ha, hk, h, okRes, errRes]
      · simp [handleDoc, ha, hk, okRes]
    all_goals
      refine ⟨Or.inl ?_, Or.inl ?_⟩ <;>
      · rcases hdl with h | h | h <;>
        by_cases h3 : env.opOk = false <;>
        by_cases h4 : env.sendOk = false <;>
        by_cases h5 : env.isZipOk = false <;>
        simp [handleDoc, ha, h, h3, h4, h5, okRes, errRes, set_state]

lemma handle_message_buckets_nodoc (env : Env) (msg : Msg) (st : BotState)
    (hdoc : msg.document = none) :
    (handle_message env msg st).state.mergeBucket = st.mergeBucket ∧
    (handle_message env msg st).state.imgBucket = st.imgBucket := by
  unfold handle_message
  by_cases h1 : st.action = some Action.proxy_wait
  · rw [if_pos h1]
    unfold handleProxyWait
    by_cases hm : proxy_re_match (pyStrip (msg.text.getD [])) = false <;>
      simp [hm, okRes, set_state]
  · rw [if_neg h1]
    by_cases h2 : st.action = some Action.text2pdf_wait_text
    · rw [if_pos h2]
      unfold handleText2pdf
      by_cases ht : (pyStrip (msg.text.getD [])).isEmpty = true <;>
      by_cases hlen : env.maxTextLen < (msg.text.getD []).length <;>
      by_cases h3 : env.opOk = false <;>
      by_cases h4 : env.sendOk = false <;>
      simp [ht, hlen, h3, h4, okRes, errRes, set_state]
    · rw [if_neg h2, hdoc]
      by_cases h5 : st.action = some Action.rename_wait_newname
      · rw [if_pos h5]
        unfold handleRenameNew
        rcases hp : st.renamePath with _ | p <;>
        by_cases ht : (pyStrip (msg.text.getD [])).isEmpty = true <;>
        by_cases hsf : (safe_filename (pyStrip (msg.text.getD []))).isEmpty = true <;>
        by_cases h6 : env.renameOk = false <;>
        by_cases h4 : env.sendOk = false <;>
        simp [hp, ht, hsf, h6, h4, okRes, errRes, set_state]
      · rw [if_neg h5]
        by_cases h7 : isDlWait st.action = true <;>
        by_cases hurl : (pyStrip (msg.text.getD [])).isEmpty = true <;>
        simp [h7, handleDl, hurl, okRes, set_state]


lemma handle_message_buckets_doc (env : Env) (msg : Msg) (doc : Doc) (st : BotState)
    (hdoc : msg.document = some doc) :
    ((handle_message env msg st).state.mergeBucket = st.mergeBucket ∨
       st.action = some Action.merge_collect) ∧
    ((handle_message env msg st).state.imgBucket = st.imgBucket ∨
       st.action = some Action.img2pdf_collect) := by
  unfold handle_message
  by_cases h1 : st.action = some Action.proxy_wait
  · rw [if_pos h1]
    unfold handleProxyWait
    constructor <;> left <;>
    · by_cases hm : proxy_re_match (pyStrip (msg.text.getD [])) = false <;>
        simp [hm, okRes, set_state]
  · rw [if_neg h1]
    by_cases h2 : st.action = some Action.text2pdf_wait_text
    · rw [if_pos h2]
      unfold handleText2pdf
      constructor <;> left <;>
      · by_cases ht : (pyStrip (msg.text.getD [])).isEmpty = true <;>
        by_cases hlen : env.maxTextLen < (msg.text.getD []).length <;>
        by_cases h3 : env.opOk = false <;>
        by_cases h4 : env.sendOk = false <;>
        simp [ht, hlen, h3, h4, okRes, errRes, set_state]
    · rw [if_neg h2, hdoc]
      exact handleDoc_buckets env doc st

lemma handle_message_merge_append (env : Env) (msg : Msg) (doc : Doc) (st : BotState)
    (hdoc : msg.document = some doc) (ha : st.action = some Action.merge_collect) :
    (handle_message env msg st).state.mergeBucket = st.mergeBucket ∨
    (handle_message env msg st).state.mergeBucket =
      some (st.mergeBucket.getD [] ++
        [wdirP ++ [safe_filename (doc.fileName.getD (codes ("file.bin")))]]) := by
  have hdl := download_cases env doc
    (wdirP ++ [safe_filename (doc.fileName.getD (codes ("file.bin")))]) st
  unfold handle_message
  rw [if_neg (by rw [ha]; simp), if_neg (by rw [ha]; simp), hdoc]
  by_cases hk : detect_content_type_from_name
      (doc.fileName.getD (codes ("file.bin"))) = Kind.pdf
  · rcases hdl with h | h | h
    · left; simp [handleDoc, ha, hk, h, errRes]
    · left; simp [handleDoc, ha, hk, h, errRes]
    · right; simp [handleDoc, ha, hk, h, okRes]
  · left; simp [handleDoc, ha, hk, okRes]

/-- C10: the pending merge and image buffers are untouched by every
menu-navigation callback, by the proxy and downloader callbacks, by the
non-collection file-action callbacks (re-selecting a collection action
resets its own buffer to empty), and by every message handled outside the
matching collect state; inside a collect state a document can only append
one downloaded path to its own buffer, and a non-document message never
touches either buffer.  In particular, navigating to another menu in the
middle of a collection leaves the accumulated list intact. -/
theorem buffers_frame (st : BotState) :
    (∀ cmd, (menu_nav cmd st).mergeBucket = st.mergeBucket ∧
            (menu_nav cmd st).imgBucket = st.imgBucket) ∧
    (∀ cmd, (proxy_actions cmd st).mergeBucket = st.mergeBucket ∧
            (proxy_actions cmd st).imgBucket = st.imgBucket) ∧
    (∀ cmd, (dl_actions cmd st).mergeBucket = st.mergeBucket ∧
            (dl_actions cmd st).imgBucket = st.imgBucket) ∧
    (∀ cmd, cmd ≠ FileCmd.mergepdf →
      (file_actions cmd st).mergeBucket = st.mergeBucket) ∧
    ((file_actions FileCmd.mergepdf st).mergeBucket = some []) ∧
    (∀ cmd, cmd ≠ FileCmd.img2pdf →
      (file_actions cmd st).imgBucket = st.imgBucket) ∧
    ((file_actions FileCmd.img2pdf st).imgBucket = some []) ∧
    (∀ env msg, st.action ≠ some Action.merge_collect →
      (handle_message env msg st).state.mergeBucket = st.mergeBucket) ∧
    (∀ env msg, st.action ≠ some Action.img2pdf_collect →
      (handle_message env msg st).state.imgBucket = st.imgBucket) ∧
    (∀ env msg doc, msg.document = some doc →
      st.action = some Action.merge_collect →
      (handle_message env msg st).state.mergeBucket = st.mergeBucket ∨
      (handle_message env msg st).state.mergeBucket =
        some (st.mergeBucket.getD [] ++
          [wdirP ++ [safe_filename (doc.fileName.getD (codes ("file.bin")))]])) ∧
    (∀ env msg, msg.document = none →
      (handle_message env msg st).state.mergeBucket = st.mergeBucket ∧
      (handle_message env msg st).state.imgBucket = st.imgBucket) := by
  refine ⟨?_, ?_, ?_, ?_, ?_, ?_, ?_, ?_, ?_, ?_, ?_⟩
  · intro cmd; cases cmd <;> simp [menu_nav, set_state]
  · intro cmd; cases cmd <;> simp [proxy_actions, set_state]
  · intro cmd; cases cmd <;> simp [dl_actions, set_state]
  · intro cmd hne; cases cmd <;> simp_all [file_actions, set_state]
  · simp [file_actions, set_state]
  · intro cmd hne; cases cmd <;> simp_all [file_actions, set_state]
  · simp [file_actions, set_state]
  · intro env msg hne
    rcases hdoc : msg.document with _ | doc
    · exact (handle_message_buckets_nodoc env msg st hdoc).1
    · have h := (handle_message_buckets_doc env msg doc st hdoc).1
      rcases h with h | h
      · exact h
      · exact absurd h hne
  · intro env msg hne
    rcases hdoc : msg.document with _ | doc
    · exact (handle_message_buckets_nodoc env msg st hdoc).2
    · have h := (handle_message_buckets_doc env msg doc st hdoc).2
      rcases h with h | h
      · exact h
      · exact absurd h hne
  · intro env msg doc hdoc ha
    exact handle_message_merge_append env msg doc st hdoc ha
  · intro env msg hdoc
    exact handle_message_buckets_nodoc env msg st hdoc

/-- Witness for C10: navigating to the downloads menu in the middle of a
merge collection keeps the accumulated list. -/
theorem buffers_frame_witness :
    (menu_nav MenuCmd.dl
      { menu := Menu.file, action := some Action.merge_collect, renamePath := none,
        userProxy := none, mergeBucket := some [[codes ("work"), codes ("a.pdf")]],
        imgBucket := none, workFiles := [], outputFiles := [] }).mergeBucket =
      some [[codes ("work"), codes ("a.pdf")]] := by
  have h := ((buffers_frame
    { menu := Menu.file, action := some Action.merge_collect, renamePath := none,
      userProxy := none, mergeBucket := some [[codes ("work"), codes ("a.pdf")]],
      imgBucket := none, workFiles := [], outputFiles := [] }).1 MenuCmd.dl).1
  rw [h]

end Velocity
